import Mathlib

/-!
Verification of the cycle log parser: a shallow embedding of the
session-state model, the event parsers and the line decoder, with proofs of
the specified properties.  Rust strings are modelled as `List Char` (or
Lean `String` where convenient), `usize` counters subject to guarded
decrements as `Int`, `HashMap`s as association lists with set-style
equality, and panicking operations as `Option`/`Except` values.
-/

set_option linter.unusedVariables false

namespace CycleLog

/-! ## String helpers -/

/-- Model of Rust `str::find` for a string pattern: the least index `i`
such that `pat` occurs in `s` starting at position `i`, or `none`. -/
def findSub (pat : List Char) : List Char → Option Nat
  | [] => if pat.isPrefixOf ([] : List Char) then some 0 else none
  | c :: t =>
    if pat.isPrefixOf (c :: t) then some 0
    else (findSub pat t).map (· + 1)

/-- Model of `parsers::substring_between`: the text strictly between the
first occurrence of `start` and the first following occurrence of `stop`. -/
def substring_between (text start stop : List Char) : Option (List Char) :=
  (findSub start text).bind fun si =>
    (findSub stop (text.drop (si + start.length))).map fun ei =>
      (text.drop (si + start.length)).take ei

/-- `substring_between` on Lean `String`s, as the parsers use it. -/
def substringBetween (text start stop : String) : Option String :=
  (substring_between text.data start.data stop.data).map fun l => ⟨l⟩

/-- `pat` occurs in `text` at position `i`. -/
def occursAt (pat text : List Char) (i : Nat) : Bool :=
  pat.isPrefixOf (text.drop i)

/-- Model of Rust `str::starts_with` (UTF-8 byte prefixes coincide with
character-list prefixes). -/
def strStartsWith (s pre : String) : Bool := pre.data.isPrefixOf s.data

/-- ASCII lowercasing of one character (the actor/weapon keys and result
keywords are ASCII; Rust's Unicode `to_lowercase` agrees there). -/
def charLower (c : Char) : Char :=
  if 65 ≤ c.toNat ∧ c.toNat ≤ 90 then Char.ofNat (c.toNat + 32) else c

/-- Model of Rust `str::to_lowercase` on ASCII data. -/
def strToLower (s : String) : String := ⟨s.data.map charLower⟩

/-- Fueled splitting loop of `splitOnStr`: cut at each leftmost occurrence
of `sep`, skipping past it. -/
def splitOnStrAux (sep : List Char) : Nat → List Char → List (List Char)
  | 0, s => [s]
  | fuel + 1, s =>
    match findSub sep s with
    | none => [s]
    | some i => s.take i :: splitOnStrAux sep fuel (s.drop (i + sep.length))

/-- Model of Rust `str::split` with a nonempty string (or char) pattern:
the pieces between consecutive leftmost occurrences of `sep`.  The fuel
`s.length + 1` suffices since each step consumes at least one character. -/
def splitOnStr (sep s : List Char) : List (List Char) :=
  if sep.isEmpty then [s] else splitOnStrAux sep (s.length + 1) s

/-! ## Numeric string parsing (Rust `from_str_radix` / `parse`) -/

/-- Decimal digit value of a character, if any. -/
def decDigit? (c : Char) : Option Nat :=
  if 48 ≤ c.toNat ∧ c.toNat ≤ 57 then some (c.toNat - 48) else none

/-- Hexadecimal digit value of a character, if any. -/
def hexDigit? (c : Char) : Option Nat :=
  if 48 ≤ c.toNat ∧ c.toNat ≤ 57 then some (c.toNat - 48)
  else if 97 ≤ c.toNat ∧ c.toNat ≤ 102 then some (c.toNat - 87)
  else if 65 ≤ c.toNat ∧ c.toNat ≤ 70 then some (c.toNat - 55)
  else none

/-- Value of a nonempty all-decimal-digit string, or `none`. -/
def decNat? (s : List Char) : Option Nat :=
  match s.mapM decDigit? with
  | none => none
  | some ds => if ds.isEmpty then none else some (ds.foldl (fun a d => a * 10 + d) 0)

/-- Model of `u64::from_str_radix(s, 16)`: an optional leading `+`, then a
nonempty run of hexadecimal digits whose value fits in 64 bits. -/
def fromStrRadix16 (s : List Char) : Option Nat :=
  let t := match s with
    | '+' :: t => t
    | _ => s
  match t.mapM hexDigit? with
  | none => none
  | some ds =>
    if ds.isEmpty then none
    else
      let v := ds.foldl (fun a d => a * 16 + d) 0
      if v < 2 ^ 64 then some v else none

/-- Model of `str::parse::<usize>` on a 64-bit target: optional `+`,
nonempty decimal digits, value below `2^64`. -/
def parseUsize (s : List Char) : Option Nat :=
  let t := match s with
    | '+' :: t => t
    | _ => s
  (decNat? t).bind fun v => if v < 2 ^ 64 then some v else none

/-- Model of `str::parse::<i64>`: optional sign, nonempty decimal digits,
value within the `i64` range. -/
def parseI64 (s : List Char) : Option Int :=
  match s with
  | '+' :: t => (decNat? t).bind fun v => if v < 2 ^ 63 then some (v : Int) else none
  | '-' :: t => (decNat? t).bind fun v => if v ≤ 2 ^ 63 then some (-(v : Int)) else none
  | t => (decNat? t).bind fun v => if v < 2 ^ 63 then some (v : Int) else none

/-! ## Data model: timings, maps, rarities, actors, weapons -/

/-- Item rarity (`objects::Rarity`). -/
inductive Rarity
  | Common
  | Uncommon
  | Rare
  | Epic
  | Exotic
  | Legendary
  | Rainbow
  deriving DecidableEq, BEq, Repr

/-- Duration profile of a map (`objects::game::timings::Timings`),
in milliseconds. -/
structure Timings where
  time_between_storms : Int
  morning : Int
  day : Int
  evening : Int
  night : Int
  deriving DecidableEq, BEq, Repr

/-- `Timings::new`: `time_between_storms` is the sum of the four phases. -/
def Timings.new (morning day evening night : Int) : Timings :=
  ⟨morning + day + evening + night, morning, day, evening, night⟩

/-- `timings::duration`: minutes and seconds to milliseconds
(`chrono::Duration::seconds(m * 60 + s).num_milliseconds()`). -/
def duration (minutes seconds : Nat) : Int :=
  ((minutes * 60 + seconds : Nat) : Int) * 1000

/-- The standard timing profile (`timings::NORMAL`). -/
def NORMAL : Timings :=
  Timings.new (duration 4 0) (duration 16 40) (duration 13 20) (duration 4 40)

/-- The faster Tharis timing profile (`timings::THARIS`). -/
def THARIS : Timings :=
  Timings.new (duration 4 0) (duration 12 40) (duration 8 20) (duration 4 40)

/-- The closed map enumeration (`objects::game::map::GameMap`). -/
inductive GameMap
  | BrightSands (t : Timings)
  | CrescentFalls (t : Timings)
  | TharisIsland (t : Timings)
  deriving DecidableEq, BEq, Repr

/-- `GameMap::timings`. -/
def GameMap.timings : GameMap → Timings
  | .BrightSands t => t
  | .CrescentFalls t => t
  | .TharisIsland t => t

/-- An actor (`objects::actors::Actor`). -/
structure Actor where
  name : String
  rarity : Rarity
  log_name : String
  deriving DecidableEq, BEq, Repr

/-- A weapon (`objects::weapons::Weapon`). -/
structure Weapon where
  name : String
  rarity : Rarity
  log_name : String
  deriving DecidableEq, BEq, Repr

/-- Association-list lookup, modelling `HashMap::get`. -/
def assocGet {α : Type} (m : List (String × α)) (k : String) : Option α :=
  match m with
  | [] => none
  | (k', v) :: t => if k' = k then some v else assocGet t k

/-- Association-list insert-or-replace, modelling `HashMap::insert`. -/
def assocInsert {α : Type} (m : List (String × α)) (k : String) (v : α) :
    List (String × α) :=
  match m with
  | [] => [(k, v)]
  | (k', v') :: t => if k' = k then (k, v) :: t else (k', v') :: assocInsert t k v

/-- Build a lookup table keyed by lowercased log name, modelling the
`lazy_static` `HashMap` construction in `actors.rs` / `weapons.rs`. -/
def buildLogNameMap {α : Type} (logName : α → String) (l : List α) :
    List (String × α) :=
  l.foldl (fun m x => assocInsert m (strToLower (logName x)) x) []

/-- The actor table from `actors.rs`. -/
def actorList : List Actor :=
  [⟨"None", .Common, "None"⟩,
   ⟨"Player", .Common, "PRO_PlayerCharacter"⟩,
   ⟨"Strider", .Common, "AIChar_Strider_BP"⟩,
   ⟨"Rattler", .Uncommon, "AIChar_Rattler_BP"⟩,
   ⟨"Crusher", .Epic, "AIChar_Crusher_BP"⟩,
   ⟨"Weremole", .Rainbow, "AIChar_Weremole_BP"⟩,
   ⟨"Howler", .Rainbow, "AIChar_Howler_BP"⟩]

/-- The `ACTORS` map. -/
def actorsMap : List (String × Actor) := buildLogNameMap Actor.log_name actorList

/-- `Actor::get`: lookup by lowercased name. -/
def Actor.get (actor : String) : Option Actor :=
  assocGet actorsMap (strToLower actor)

/-- The weapon table from `weapons.rs`. -/
def weaponList : List Weapon :=
  [⟨"None", .Common, "None"⟩,
   ⟨"K_28 (Scrappy)", .Common, "WP_E_Pistol_Bullet_01_scrappy"⟩,
   ⟨"K_28", .Common, "WP_E_Pistol_Bullet_01"⟩,
   ⟨"B9_Trenchgun (Scrappy)", .Common, "WP_E_SGun_Bullet_01_scrappy"⟩,
   ⟨"B9_Trenchgun", .Common, "WP_E_SGun_Bullet_01"⟩,
   ⟨"S_576 (Scrappy)", .Common, "WP_E_SMG_Bullet_01_scrappy"⟩,
   ⟨"S_576", .Common, "WP_E_SMG_Bullet_01"⟩,
   ⟨"S_576", .Uncommon, "WP_E_SMG_Bullet_02"⟩,
   ⟨"AR_55 (Scrappy)", .Common, "WP_E_AR_Energy_01_scrappy"⟩,
   ⟨"AR_55", .Common, "WP_E_AR_Energy_01"⟩,
   ⟨"AR_55", .Uncommon, "WP_E_AR_Energy_02"⟩,
   ⟨"C_32_Bolt", .Common, "WP_E_Sniper_Bullet_01"⟩,
   ⟨"C_32_Bolt", .Uncommon, "WP_E_Sniper_Bullet_02"⟩,
   ⟨"Bulldog", .Uncommon, "WP_D_Pistol_Bullet_01"⟩,
   ⟨"Guarantee", .Uncommon, "WP_D_LMG_Energy_02"⟩,
   ⟨"Guarantee", .Rare, "WP_D_LMG_Energy_01"⟩,
   ⟨"Lacerator", .Rare, "WP_D_BR_Shard_01"⟩,
   ⟨"Shattergun", .Epic, "WP_D_SGun_Shard_01"⟩,
   ⟨"Advocate", .Epic, "WP_D_AR_Bullet_01"⟩,
   ⟨"Voltaic_brute", .Exotic, "WP_D_SMG_Energy_01"⟩,
   ⟨"Kinetic_arbiter", .Exotic, "WP_D_Sniper_Gauss_01"⟩,
   ⟨"Scrapper", .Uncommon, "WP_A_SMG_Shard_01"⟩,
   ⟨"Maelstorm", .Rare, "WP_A_SGun_Energy_01"⟩,
   ⟨"Longshot", .Rare, "WP_A_BR_Bullet_02"⟩,
   ⟨"Longshot", .Epic, "WP_A_BR_Bullet_01"⟩,
   ⟨"Hammer", .Rare, "WP_A_Pistol_Bullet_02"⟩,
   ⟨"Hammer", .Exotic, "WP_A_Pistol_Bullet_01"⟩,
   ⟨"KOR", .Exotic, "WP_A_AR_Bullet_01"⟩,
   ⟨"Scarab", .Uncommon, "WP_G_Pistol_Energy_01"⟩,
   ⟨"Scarab", .Rare, "WP_G_Pistol_Energy_02"⟩,
   ⟨"Manticore", .Uncommon, "WP_G_AR_Needle_01"⟩,
   ⟨"Manticore", .Rare, "WP_G_AR_Needle_02"⟩,
   ⟨"Phasic Lancer", .Rare, "WP_G_AR_Energy_01"⟩,
   ⟨"Flechette Gun", .Rare, "WP_G_SMG_Needle_02"⟩,
   ⟨"Flechette Gun", .Epic, "WP_G_SMG_Needle_01"⟩,
   ⟨"Gorgon", .Epic, "WP_G_AR_Beam_01"⟩,
   ⟨"Basilisk", .Exotic, "WP_G_Sniper_Energy_01"⟩,
   ⟨"KARMA", .Epic, "WP_A_Sniper_Gauss_02"⟩,
   ⟨"KARMA", .Legendary, "WP_A_Sniper_Gauss_01"⟩,
   ⟨"KOMRAD", .Legendary, "WP_A_Launch_MSL_01"⟩,
   ⟨"ZEUS", .Epic, "WP_G_HVY_Beam_02"⟩,
   ⟨"ZEUS", .Legendary, "WP_G_HVY_Beam_01"⟩,
   ⟨"Knife", .Rainbow, "Melee_Knife_01"⟩,
   ⟨"Shock Grenade", .Common, "ShockGrenade_01"⟩,
   ⟨"Shock Grenade", .Uncommon, "ShockGrenade_02"⟩,
   ⟨"Shock Grenade", .Rare, "ShockGrenade_03"⟩,
   ⟨"Shock Grenade", .Epic, "ShockGrenade_04"⟩,
   ⟨"Shock Grenade", .Exotic, "ShockGrenade_05"⟩,
   ⟨"Gas Grenade", .Uncommon, "Consumable_GasGrenade_01"⟩,
   ⟨"Suicide", .Common, "Suicide"⟩,
   ⟨"Fall", .Uncommon, "Fall"⟩,
   ⟨"Lightning Strike", .Rare, "LightningStrike_BP"⟩]

/-- The `WEAPONS` map. -/
def weaponsMap : List (String × Weapon) := buildLogNameMap Weapon.log_name weaponList

/-- `Weapon::get`: lookup by lowercased name. -/
def Weapon.get (weapon : String) : Option Weapon :=
  assocGet weaponsMap (strToLower weapon)

/-! ## Game sessions -/

/-- The color list from `utils::fake_name`. -/
def fakeColors : List String :=
  ["red", "blue", "green", "yellow", "white", "black", "cyan", "magenta",
   "orange", "pink", "purple", "brown", "lime", "olive", "maroon", "navy",
   "gray", "silver"]

/-- The animal list from `utils::fake_name`. -/
def fakeAnimals : List String :=
  ["cat", "dog", "lion", "tiger", "elephant", "giraffe", "bear", "fox",
   "wolf", "hippopotamus", "zebra", "deer", "rabbit", "squirrel", "kangaroo",
   "koala", "monkey", "penguin", "dolphin", "whale", "shark", "crocodile",
   "turtle", "octopus"]

/-- `utils::fake_name` applied to `StdRng::seed_from_u64 seed`: one color
and one animal picked pseudo-randomly from the two lists.  The external
ChaCha-based `StdRng` stream is not reproduced; no verified property
depends on which pair is chosen, only on the choice being a total,
deterministic function of the seed, so the model indexes the lists directly
by the seed. -/
def fake_name (seed : Nat) : String :=
  (fakeColors.getD (seed % fakeColors.length) "red") ++ " " ++
    (fakeAnimals.getD ((seed / fakeColors.length) % fakeAnimals.length) "cat")

/-- A game session (`objects::game::Game`).  The `usize` player counters
are modelled as `Int` so that the guarded-decrement invariant (the counters
never become negative) is a theorem rather than a typing artifact.  The
`kill_count` `HashMap` is an association list with unique keys. -/
structure Game where
  instance_id : String
  region : String
  name : String
  map : GameMap
  created_at : Int
  party_size : Nat
  total_players : Int
  near_players : Int
  kill_count : List (String × Nat)
  deriving DecidableEq, BEq, Repr

/-- The trailing hyphen-delimited segment of a string
(`instance_id.split('-').last()`, which is always `Some`). -/
def lastHyphenSeg (s : String) : String := ⟨(splitOnStr "-".data s.data).getLastD []⟩

/-- Model of `Game::new`.  `none` models the panic of the Rust code: the
trailing `-`-separated segment of `instance_id` is nonempty but is not a
valid 64-bit hexadecimal numeral, so `from_str_radix(...).unwrap()` dies. -/
def Game.new (instance_id region : String) (map : GameMap) (created_at : Int)
    (party_size : Nat) : Option Game :=
  let id := lastHyphenSeg instance_id
  let name? : Option String :=
    if id ≠ "" then (fromStrRadix16 id.data).map fake_name
    else some ""
  name?.map fun name =>
    { instance_id := instance_id, region := region, name := name, map := map,
      created_at := created_at, party_size := party_size,
      total_players := 0, near_players := 0, kill_count := [] }

/-- `Game::drop_game`: clear the kill tally and reset both player counters
(the session itself is kept). -/
def Game.drop_game (g : Game) : Game :=
  { g with kill_count := [], total_players := 0, near_players := 0 }

/-- `HashMap::entry(id).or_insert(0)` followed by an increment: the updated
map and the new tally for `id`. -/
def bumpKill : List (String × Nat) → String → List (String × Nat) × Nat
  | [], id => ([(id, 1)], 1)
  | (k, v) :: t, id =>
    if k = id then ((k, v + 1) :: t, v + 1)
    else
      let r := bumpKill t id
      ((k, v) :: r.1, r.2)

/-- `Game::kill`: bump the kill tally for `id`, returning the new count. -/
def Game.kill (g : Game) (id : String) : Game × Nat :=
  let r := bumpKill g.kill_count id
  ({ g with kill_count := r.1 }, r.2)

/-- `HashMap` equality as used by the derived `PartialEq` of `Game`: equal
size and every key-value pair of the first present in the second. -/
def hashMapEqv (a b : List (String × Nat)) : Bool :=
  a.length == b.length && a.all fun kv => assocGet b kv.1 == some kv.2

/-- The derived `PartialEq` of `Game`: field-wise equality, with
order-insensitive `HashMap` equality for the kill tally. -/
def gameEq (a b : Game) : Bool :=
  a.instance_id == b.instance_id && a.region == b.region && a.name == b.name &&
    a.map == b.map && a.created_at == b.created_at &&
    a.party_size == b.party_size && a.total_players == b.total_players &&
    a.near_players == b.near_players && hashMapEqv a.kill_count b.kill_count

/-! ## Session store (`state::StateHolder`) -/

/-- The session store: ordered history of games (front = most recent) and
the in-game flag.  The `Mutex` wrappers of the Rust code protect the same
data; the single-threaded line-by-line step semantics modelled here is the
serialization they enforce. -/
structure StateHolder where
  games : List Game
  in_game : Bool
  deriving DecidableEq, Repr

/-- `StateHolder::new`. -/
def StateHolder.new : StateHolder := ⟨[], false⟩

/-- The history with the front session's counters dropped — the shared
`front_mut` + `drop_game` step of `leave_game` and `set_game`. -/
def dropFrontGames : List Game → List Game
  | [] => []
  | f :: r => f.drop_game :: r

/-- `StateHolder::leave_game`: clear the in-game flag and drop the front
session's counters. -/
def StateHolder.leave_game (st : StateHolder) : StateHolder :=
  { games := dropFrontGames st.games, in_game := false }

/-- `StateHolder::set_game`: set the in-game flag, drop the front session's
counters, then push to the front either a clone of the first session whose
`instance_id` matches the new one (the original entry stays in place), or
the new session. -/
def StateHolder.set_game (st : StateHolder) (game : Game) : StateHolder :=
  let games := dropFrontGames st.games
  let existing := games.find? fun g => g.instance_id == game.instance_id
  { games := existing.getD game :: games, in_game := true }

/-- The iteration inside `StateHolder::games_ago`: position (counted from
`c + 1`) of the first entry equal (`gameEq`) to `g`. -/
def gamesAgoLoop (g : Game) : List Game → Nat → Option Nat
  | [], _ => none
  | x :: xs, c => if gameEq x g then some (c + 1) else gamesAgoLoop g xs (c + 1)

/-- `StateHolder::games_ago`: distance from the front of history to the
next entry equal to it. -/
def StateHolder.games_ago (st : StateHolder) : Option Nat :=
  match st.games with
  | [] => none
  | g :: rest => gamesAgoLoop g rest 0

/-! ## Presentation events and parsers -/

/-- Presentation-sink notifications (`overlay::events::Action`), restricted
to the payload the verified properties inspect.  The timed notifications
also carry the line timestamp and a fixed lifetime in the Rust code; those
fields decide nothing below and are omitted. -/
inductive Event
  | TotalPlayerCountUpdate (n : Int)
  | NearPlayerCountUpdate (n : Int)
  | PlayerEscaped
  | PlayerDead (causer : Option Actor) (kills : Nat) (weapon : Option Weapon)
      (damage : String)
  | UpdateState (g : Option Game)
  | EvacShipCalled
  | MeteorsEvent
  deriving DecidableEq, Repr


/-- An audible-alert call (`utils::beep`): frequency and duration of the
tone.  Whether a sound is actually produced further depends on wall-clock
recency inside `beep`, which is outside this model. -/
structure Beep where
  freq : Nat
  dur : Nat
  deriving DecidableEq, Repr

/-- The weapon fallback chain of the "dead" branch of the player parser. -/
def resolveWeapon (causer : Option Actor) (origin_weapon : Option Weapon) :
    Option Weapon :=
  causer.bind fun c =>
    if c.name = "None" then Weapon.get "Suicide"
    else if c.name = "Player" then
      if origin_weapon.map Weapon.name = some "None" then Weapon.get "Fall"
      else origin_weapon
    else none

/-- The player parser's internal state (`parsers::player::Parser`). -/
structure PlayerParser where
  last_finished : Bool
  deriving DecidableEq, Repr

/-- `player::Parser::default`. -/
def PlayerParser.default : PlayerParser := ⟨false⟩

/-- Model of `parsers::player::Parser::parse`.  A `none` result models a
panic of the Rust code: an `unwrap` on a missing `Damage:Causer:` or
`m_healthDamage:` field, or indexing a missing `_C_`-separated attacker
part.  The damage field is carried as its raw string — its `f32` value is
inspected by no verified property (its parse failure, a further panic
source, is not modelled).  A `Beep` records a call of `utils::beep`. -/
def playerParse (p : PlayerParser) (st : StateHolder) (type_ text : String) :
    Option (PlayerParser × StateHolder × List Event × List Beep) :=
  if !st.in_game then some (p, st, [], [])
  else if type_ = "LogYPlayer" then
    match st.games with
    | [] => some (p, st, [], [])
    | game :: rest =>
      if strStartsWith text "OnRep_PlayerMatchState" then
        match substringBetween text "[" "]" with
        | some player_state =>
          if player_state = "inMatch" then
            let game := { game with total_players := game.total_players + 1 }
            let beeps : List Beep :=
              if game.total_players > (game.party_size : Int) then [⟨2000, 250⟩] else []
            some (⟨false⟩, { st with games := game :: rest },
              [.TotalPlayerCountUpdate game.total_players], beeps)
          else if game.total_players > 0 then
            let game := { game with total_players := game.total_players - 1 }
            let beeps : List Beep :=
              if game.total_players > (game.party_size : Int) then [⟨400, 150⟩] else []
            some (⟨true⟩, { st with games := game :: rest },
              [.TotalPlayerCountUpdate game.total_players], beeps)
          else
            some (p, st, [.TotalPlayerCountUpdate game.total_players], [])
        | none => some (p, st, [], [])
      else if strStartsWith text "OnPlayerStateChanged" then
        let game := { game with near_players := game.near_players + 1 }
        some (p, { st with games := game :: rest },
          [.NearPlayerCountUpdate game.near_players], [])
      else if strStartsWith text "AYPlayerCharacter::Destroyed()" then
        if game.near_players > 0 then
          let game := { game with near_players := game.near_players - 1 }
          some (p, { st with games := game :: rest },
            [.NearPlayerCountUpdate game.near_players], [])
        else some (p, st, [], [])
      else if strStartsWith text "AYPlayerState::OnRep_PlayerMatchFinishedResult" then
        match substringBetween text "Result:" " " with
        | some result =>
          if strToLower result = "escaped" then some (p, st, [.PlayerEscaped], [])
          else if strToLower result = "dead" then
            match substringBetween text "Damage:Causer:" " " with
            | none => none
            | some causer_parts =>
              let parts := splitOnStr "_C_".data causer_parts.data
              match parts.get? 1 with
              | none => none
              | some attacker =>
                let causer := Actor.get ⟨parts.headD []⟩
                let origin_string := substringBetween text "Origin:OriginRow:[" "]"
                let origin_weapon := origin_string.bind fun s => Weapon.get s
                match substringBetween text "m_healthDamage:" " " with
                | none => none
                | some damage =>
                  let r := game.kill ⟨attacker⟩
                  let weapon := resolveWeapon causer origin_weapon
                  some (p, { st with games := r.1 :: rest },
                    [.PlayerDead causer r.2 weapon damage], [])
          else some (p, st, [], [])
        | none => some (p, st, [], [])
      else some (p, st, [], [])
  else if type_ = "LogYInventory" && p.last_finished then
    if strStartsWith text "GetInventoryComponentManager | Could not retrieve YGameStateMatch!" then
      match st.games with
      | [] => some (p, st, [], [])
      | game :: rest =>
        let game := { game with total_players := game.total_players + 1 }
        some (⟨false⟩, { st with games := game :: rest },
          [.TotalPlayerCountUpdate game.total_players], [])
    else some (p, st, [], [])
  else some (p, st, [], [])

/-- The session parser's internal state (`parsers::server::Parser`). -/
structure ServerParser where
  instance_id : String
  region : String
  map : GameMap
  party_size : Nat
  created_at : Int
  hold : Bool
  deriving DecidableEq, Repr

/-- `server::Parser::default`.  Note `party_size` starts at `0` and
`created_at` at the epoch (`chrono::DateTime::default()`). -/
def ServerParser.default : ServerParser :=
  { instance_id := "", region := "", map := GameMap.TharisIsland NORMAL,
    party_size := 0, created_at := 0, hold := false }

/-- `server::parse_map`: the closed map-code lookup. -/
def parseMap (map : String) : Option GameMap :=
  if map = "MAP01" then some (GameMap.BrightSands NORMAL)
  else if map = "MAP02" then some (GameMap.CrescentFalls NORMAL)
  else if map = "AlienCaverns" then some (GameMap.TharisIsland THARIS)
  else none

/-- Model of `parsers::server::Parser::parse`.  `none` models a panic: an
`unwrap` on a missing `sessionId`/`region`/`Timestamp`/map field, a failed
numeric parse, or `Game::new` dying on a malformed instance id.  `time` is
the decoded line timestamp in Unix milliseconds, so the challenge-response
arithmetic `time - (secs - 5) s` becomes `time - (secs - 5) * 1000`. -/
def serverParse (p : ServerParser) (st : StateHolder) (time : Int)
    (type_ text : String) : Option (ServerParser × StateHolder × List Event) :=
  if type_ = "LogYTravel" then
    if strStartsWith text "UYControllerTravelComponent::TravelToServer" then
      match substringBetween text "m_isMatch [" "]" with
      | some result =>
        if result = "0" then
          some (p, st.leave_game, [.UpdateState none])
        else
          match substringBetween text "sessionId [" "]" with
          | none => none
          | some iid =>
            match substringBetween text "region [" "]" with
            | none => none
            | some reg =>
              some ({ p with hold := true, instance_id := iid, region := reg }, st, [])
      | none => some (p, st, [])
    else if strStartsWith text "Forcing transition to match" then
      match substringBetween text "SquadSize=" "?" with
      | none => some ({ p with party_size := 1 }, st, [])
      | some s =>
        match parseUsize s.data with
        | none => none
        | some n => some ({ p with party_size := n }, st, [])
    else some (p, st, [])
  else if type_ = "LogHandshake" && p.hold && strStartsWith text "SendChallengeResponse" then
    match substringBetween text "Timestamp: " "." with
    | none => none
    | some ts =>
      match parseI64 ts.data with
      | none => none
      | some secs => some ({ p with created_at := time - (secs - 5) * 1000 }, st, [])
  else if type_ = "LogNet" && p.hold && strStartsWith text "Welcomed by server" then
    match substringBetween text "/Game/Maps/MP/" "/" with
    | none => none
    | some map_s =>
      let p := match parseMap map_s with
        | some m => { p with map := m }
        | none => p
      match Game.new p.instance_id p.region p.map p.created_at p.party_size with
      | none => none
      | some game =>
        some ({ p with hold := false }, st.set_game game, [.UpdateState (some game)])
  else some (p, st, [])

/-- Model of `parsers::activities::Parser::parse`: stateless, emit-only. -/
def activitiesParse (st : StateHolder) (type_ text : String) : List Event :=
  if type_ = "LogYActivities" && st.in_game then
    if strStartsWith text "Warning: AC_EvacShip_BP" then [.EvacShipCalled]
    else if strStartsWith text "Warning: AA_MeteorShowerSpawner" then [.MeteorsEvent]
    else []
  else []

/-! ## The combined pipeline over decoded records -/

/-- The mutable state of the whole pipeline: the two stateful parsers and
the shared session store. -/
structure SysState where
  player : PlayerParser
  server : ServerParser
  state : StateHolder
  deriving Repr

/-- The pipeline's initial state. -/
def SysState.init : SysState :=
  ⟨PlayerParser.default, ServerParser.default, StateHolder.new⟩

/-- One decoded record pushed through the three parsers in the listener's
fixed order (activities, player, server); `none` models a panic of any of
them. -/
def systemStep (s : SysState) (time : Int) (type_ text : String) :
    Option (SysState × List Event × List Beep) :=
  let ev0 := activitiesParse s.state type_ text
  match playerParse s.player s.state type_ text with
  | none => none
  | some (p', st1, ev1, beeps) =>
    match serverParse s.server st1 time type_ text with
    | none => none
    | some (sp', st2, ev2) => some (⟨p', sp', st2⟩, ev0 ++ ev1 ++ ev2, beeps)

/-- Run the pipeline over a list of decoded `(time, type, text)` records
starting from `s`, stopping with `none` as soon as any step panics. -/
def runSystemFrom (s : SysState) : List (Int × String × String) → Option SysState
  | [] => some s
  | (t, ty, tx) :: rest =>
    match systemStep s t ty tx with
    | none => none
    | some (s', _, _) => runSystemFrom s' rest

/-- Run the pipeline over a record list from the initial state. -/
def runSystem (l : List (Int × String × String)) : Option SysState :=
  runSystemFrom SysState.init l

/-! ## Line decoder (`parsers::listener`) -/

/-- A decimal-digit character. -/
def isDigitB (c : Char) : Bool := 48 ≤ c.toNat && c.toNat ≤ 57

/-- A word character for `\w`, restricted to ASCII: letter, digit or
underscore.  The regex crate's `\w` (and `\d`) are Unicode classes, but on
ASCII text they coincide exactly with this definition (and with
`isDigitB`), so the decoder theorems carry an ASCII-line hypothesis. -/
def isWordChar (c : Char) : Bool :=
  (48 ≤ c.toNat && c.toNat ≤ 57) || (65 ≤ c.toNat && c.toNat ≤ 90) ||
    (97 ≤ c.toNat && c.toNat ≤ 122) || c == '_'

/-- Admissible character at position `i` of the 23-character timestamp
pattern `\d{4}\.\d{2}\.\d{2}-\d{2}\.\d{2}\.\d{2}:\d{3}`. -/
def tsCharOK (i : Nat) (c : Char) : Bool :=
  if i = 4 || i = 7 || i = 13 || i = 16 then c == '.'
  else if i = 10 then c == '-'
  else if i = 19 then c == ':'
  else isDigitB c

/-- The timestamp capture group's shape: exactly 23 characters, each
admissible at its position. -/
def tsShapeB (ts : List Char) : Bool :=
  ts.length == 23 && (List.range 23).all fun i => tsCharOK i (ts.getD i ' ')

/-- Value of the digit character at position `i`. -/
def tsDigit (ts : List Char) (i : Nat) : Nat := (ts.getD i ' ').toNat - 48

/-- The numeric fields `(year, month, day, hour, minute, second, millis)`
of a shape-matching timestamp. -/
def tsFields (ts : List Char) : Nat × Nat × Nat × Nat × Nat × Nat × Nat :=
  (tsDigit ts 0 * 1000 + tsDigit ts 1 * 100 + tsDigit ts 2 * 10 + tsDigit ts 3,
   tsDigit ts 5 * 10 + tsDigit ts 6,
   tsDigit ts 8 * 10 + tsDigit ts 9,
   tsDigit ts 11 * 10 + tsDigit ts 12,
   tsDigit ts 14 * 10 + tsDigit ts 15,
   tsDigit ts 17 * 10 + tsDigit ts 18,
   tsDigit ts 20 * 100 + tsDigit ts 21 * 10 + tsDigit ts 22)

/-- Gregorian leap year. -/
def isLeap (y : Nat) : Bool := (y % 4 == 0 && y % 100 != 0) || y % 400 == 0

/-- Days in a month. -/
def daysInMonth (y m : Nat) : Nat :=
  if m = 2 then (if isLeap y then 29 else 28)
  else if m = 4 || m = 6 || m = 9 || m = 11 then 30
  else 31

/-- Calendar validity of a shape-matching timestamp, modelling what
`chrono`'s `datetime_from_str` accepts for this format.  `%S` accepts `60`
(a leap second): chrono stores it as second 59 carrying an extra `10^9`
nanoseconds, and the millisecond timestamp of that instant coincides with
second 0 of the following minute — exactly the value `tsMillis` assigns to
a seconds field of `60`. -/
def validTs (ts : List Char) : Bool :=
  tsShapeB ts &&
    (let f := tsFields ts
     let y := f.1
     let m := f.2.1
     let d := f.2.2.1
     let h := f.2.2.2.1
     let mi := f.2.2.2.2.1
     let s := f.2.2.2.2.2.1
     1 ≤ m && m ≤ 12 && 1 ≤ d && d ≤ daysInMonth y m && h ≤ 23 && mi ≤ 59 && s ≤ 60)

/-- Days since 1970-01-01 of a Gregorian date (standard civil-calendar
conversion). -/
def daysFromCivil (y m d : Nat) : Int :=
  let yi : Int := if m ≤ 2 then (y : Int) - 1 else (y : Int)
  let era : Int := (if 0 ≤ yi then yi else yi - 399) / 400
  let yoe : Int := yi - era * 400
  let mp : Int := ((m : Int) + 9) % 12
  let doy : Int := (153 * mp + 2) / 5 + (d : Int) - 1
  let doe : Int := yoe * 365 + yoe / 4 - yoe / 100 + doy
  era * 146097 + doe - 719468

/-- Unix milliseconds denoted by a shape-matching timestamp.  A seconds
field of `60` (a leap second) lands on second 0 of the following minute,
which is the millisecond timestamp chrono gives its leap-second
representation. -/
def tsMillis (ts : List Char) : Int :=
  let f := tsFields ts
  daysFromCivil f.1 f.2.1 f.2.2.1 * 86400000 + (f.2.2.2.1 : Int) * 3600000 +
    (f.2.2.2.2.1 : Int) * 60000 + (f.2.2.2.2.2.1 : Int) * 1000 + (f.2.2.2.2.2.2 : Int)

/-- Model of `Utc.datetime_from_str(ts, "%Y.%m.%d-%H.%M.%S:%3f")`:
the UTC instant in Unix milliseconds, or `none` on a calendar-invalid
timestamp. -/
def chronoParse (ts : List Char) : Option Int :=
  if validTs ts then some (tsMillis ts) else none

/-- The three capture groups of the line pattern. -/
structure RawLine where
  ts : List Char
  type_ : List Char
  text : List Char
  deriving DecidableEq, Repr

/-- Consume one expected character. -/
def expectChar (a : Char) : List Char → Option (List Char)
  | c :: r => if c = a then some r else none
  | [] => none

/-- Anchored match of the line pattern
`\[(\d{4}\.\d{2}\.\d{2}-\d{2}\.\d{2}\.\d{2}:\d{3})]\[.{3}](\w*): (.*)`
at the start of `cs`: `[`, the fixed-width timestamp, `][`, three
non-newline frame characters, `]`, the maximal word-character run (the
regex can match here in no other way), `: `, then the rest of the line up
to a newline. -/
def matchAt (cs : List Char) : Option RawLine :=
  (expectChar '[' cs).bind fun r1 =>
    let ts := r1.take 23
    if tsShapeB ts then
      (expectChar ']' (r1.drop 23)).bind fun r2a =>
        (expectChar '[' r2a).bind fun r2 =>
          let fr := r2.take 3
          if fr.length == 3 && fr.all (· != '\n') then
            (expectChar ']' (r2.drop 3)).bind fun r3 =>
              let ty := r3.takeWhile isWordChar
              (expectChar ':' (r3.dropWhile isWordChar)).bind fun r4 =>
                (expectChar ' ' r4).map fun rest =>
                  ⟨ts, ty, rest.takeWhile (· != '\n')⟩
          else none
    else none

/-- Leftmost match of the line pattern in `cs`, modelling the unanchored
`Regex::captures` search. -/
def findMatch : List Char → Option RawLine
  | [] => none
  | c :: t =>
    match matchAt (c :: t) with
    | some r => some r
    | none => findMatch t

/-- Model of `Listener::handle` up to the parser fan-out: the leftmost
line-pattern match, then the timestamp parse whose `unwrap` panic is
`Except.error`.  `ok none` is the silent skip of a non-matching line. -/
def handle (cs : List Char) : Except Unit (Option (Int × List Char × List Char)) :=
  match findMatch cs with
  | none => .ok none
  | some r =>
    match chronoParse r.ts with
    | none => .error ()
    | some t => .ok (some (t, r.type_, r.text))

/-- The declarative line grammar of the specification, anchored:
`[<ts>][<fr>]<ty>: <txt>` with `ts` of timestamp shape, `fr` three
non-newline characters, `ty` a run of word characters (its maximality is
forced by the `:` that follows it), and `txt` the entire remaining text of
the line. -/
def LineGrammar (cs ts ty txt : List Char) : Prop :=
  ∃ fr, cs = '[' :: ts ++ ']' :: '[' :: fr ++ ']' :: ty ++ ':' :: ' ' :: txt ∧
    tsShapeB ts = true ∧ fr.length = 3 ∧ (∀ c ∈ fr, c ≠ '\n') ∧
    (∀ c ∈ ty, isWordChar c = true) ∧ '\n' ∉ txt

/-! ## Statement-level predicates -/

/-- `pat` occurs in `text` first at position `i`. -/
def FirstOcc (pat text : List Char) (i : Nat) : Prop :=
  occursAt pat text i = true ∧ ∀ k < i, occursAt pat text k = false

/-- First occurrence of `pat` in `text` at or after position `m` is at
position `j`. -/
def FirstOccFrom (pat text : List Char) (m j : Nat) : Prop :=
  m ≤ j ∧ occursAt pat text j = true ∧
    ∀ k, k < j → m ≤ k → occursAt pat text k = false

instance (pat text : List Char) (i : Nat) : Decidable (FirstOcc pat text i) := by
  unfold FirstOcc
  infer_instance

instance (pat text : List Char) (m j : Nat) : Decidable (FirstOccFrom pat text m j) := by
  unfold FirstOccFrom
  infer_instance

/-- Counter sanity: every session in the store has non-negative player
counters. -/
def countersOK (st : StateHolder) : Prop :=
  ∀ g ∈ st.games, 0 ≤ g.total_players ∧ 0 ≤ g.near_players

/-- `games_ago` as the specification words it (the spec-side definition of
the refinement proof): the 1-based distance from the front of history to
the next entry equal to the front, or `none` when history has fewer than
two entries or no such equal entry exists. -/
def gamesAgoSpec (st : StateHolder) : Option Nat :=
  if st.games.length < 2 then none
  else
    match st.games with
    | [] => none
    | g :: rest => (rest.findIdx? fun x => gameEq x g).map (· + 1)

/-! ## Theorems -/

theorem gamesAgoLoop_eq_findIdx (g : Game) (l : List Game) (c : Nat) :
    gamesAgoLoop g l c = (List.findIdx? (fun x => gameEq x g) l c).map (· + 1) := by
  induction l generalizing c with
  | nil => simp [gamesAgoLoop]
  | cons x xs ih =>
    rw [gamesAgoLoop, List.findIdx?_cons]
    by_cases h : gameEq x g
    · simp [h]
    · simp only [h, if_neg, Bool.false_eq_true, ite_false, ih]

/-- Claim C6: `games_ago` returns the 1-based distance from the front of
history to the next entry structurally equal (including mutated counters
and the kill tally, by `HashMap` equality) to the front entry, and `none`
when history has fewer than two entries or no such equal entry exists —
stated as a refinement of the spec-side definition `gamesAgoSpec`. -/
theorem games_ago_matches_spec (st : StateHolder) :
    st.games_ago = gamesAgoSpec st := by
  unfold StateHolder.games_ago gamesAgoSpec
  cases hg : st.games with
  | nil => simp
  | cons g rest =>
    cases rest with
    | nil => simp [gamesAgoLoop]
    | cons y ys =>
      have h2 : ¬ (ys.length + 1 + 1 < 2) := by omega
      simp [gamesAgoLoop_eq_findIdx, h2]

theorem dropFrontGames_length (l : List Game) :
    (dropFrontGames l).length = l.length := by
  cases l <;> simp [dropFrontGames]

/-- Claim C1 counterexample: inserting a freshly constructed (zeroed)
session whose `instance_id` already heads the history neither keeps the
history length unchanged nor preserves the existing session's accumulated
counters — the front is reset before the dedup lookup and a copy is pushed,
leaving a duplicate entry behind. -/
theorem set_game_dedup_counterexample :
    (StateHolder.set_game
        ⟨[⟨"a", "r", "n", GameMap.BrightSands NORMAL, 0, 1, 5, 2, [("k", 3)]⟩], true⟩
        ⟨"a", "r", "n", GameMap.BrightSands NORMAL, 0, 1, 0, 0, []⟩).games.length = 2 ∧
      (StateHolder.set_game
        ⟨[⟨"a", "r", "n", GameMap.BrightSands NORMAL, 0, 1, 5, 2, [("k", 3)]⟩], true⟩
        ⟨"a", "r", "n", GameMap.BrightSands NORMAL, 0, 1, 0, 0, []⟩).games.map
          Game.total_players = [0, 0] := by
  constructor
  · rfl
  · rfl

/-- Claim C1 (amended): `set_game` always first resets the front session's
counters, then pushes to the front either the first (post-reset) session
whose `instance_id` matches the inserted one — leaving the original entry
in place, so history grows by one — or, when no such session exists, the
inserted session itself; the in-game flag is set either way. -/
theorem set_game_characterization (st : StateHolder) (g : Game) :
    (st.set_game g).in_game = true ∧
    (st.set_game g).games.tail = dropFrontGames st.games ∧
    (st.set_game g).games.length = st.games.length + 1 ∧
    (match (dropFrontGames st.games).find? (fun x => x.instance_id == g.instance_id) with
     | some x => (st.set_game g).games.head? = some x
     | none => (st.set_game g).games.head? = some g) := by
  refine ⟨rfl, rfl, ?_, ?_⟩
  · simp [StateHolder.set_game, dropFrontGames_length]
  · cases h : (dropFrontGames st.games).find? (fun x => x.instance_id == g.instance_id) <;>
      simp [StateHolder.set_game, h]

set_option maxRecDepth 10000 in
/-- Claim C7: a travel-to-server event whose `m_isMatch` flag extracts to
`"0"`, processed while in a session, clears the in-game flag, resets the
front session's counters and kill tally, keeps every other field of every
session and the history length unchanged (no session is removed), changes
no parser field, and emits exactly a session-state notification carrying
`none`. -/
theorem travel_nonmatch_drops_front (p : ServerParser) (st : StateHolder)
    (time : Int) (text : String)
    (h1 : strStartsWith text "UYControllerTravelComponent::TravelToServer" = true)
    (h2 : substringBetween text "m_isMatch [" "]" = some "0")
    (h3 : st.in_game = true) :
    serverParse p st time "LogYTravel" text =
      some (p, ⟨dropFrontGames st.games, false⟩, [Event.UpdateState none]) ∧
    (dropFrontGames st.games).length = st.games.length ∧
    (dropFrontGames st.games).tail = st.games.tail ∧
    (dropFrontGames st.games).head? = st.games.head?.map Game.drop_game ∧
    ∀ g : Game, g.drop_game.total_players = 0 ∧ g.drop_game.near_players = 0 ∧
      g.drop_game.kill_count = [] ∧ g.drop_game.instance_id = g.instance_id ∧
      g.drop_game.region = g.region ∧ g.drop_game.name = g.name ∧
      g.drop_game.map = g.map ∧ g.drop_game.created_at = g.created_at ∧
      g.drop_game.party_size = g.party_size := by
  refine ⟨?_, dropFrontGames_length st.games, ?_, ?_, ?_⟩
  · simp [serverParse, h1, h2, StateHolder.leave_game]
  · cases st.games <;> simp [dropFrontGames]
  · cases st.games <;> simp [dropFrontGames]
  · intro g
    simp [Game.drop_game]

set_option maxRecDepth 10000 in
/-- Witness for claim C7 at a concrete travel line and one-session store. -/
theorem travel_nonmatch_drops_front_witness :
    serverParse ⟨"", "", GameMap.TharisIsland NORMAL, 0, 0, false⟩
      ⟨[⟨"a", "r", "n", GameMap.BrightSands NORMAL, 0, 1, 5, 2, [("k", 3)]⟩], true⟩
      0 "LogYTravel" "UYControllerTravelComponent::TravelToServer | m_isMatch [0]" =
      some (⟨"", "", GameMap.TharisIsland NORMAL, 0, 0, false⟩,
        ⟨[⟨"a", "r", "n", GameMap.BrightSands NORMAL, 0, 1, 0, 0, []⟩], false⟩,
        [Event.UpdateState none]) := by
  have h := travel_nonmatch_drops_front
    ⟨"", "", GameMap.TharisIsland NORMAL, 0, 0, false⟩
    ⟨[⟨"a", "r", "n", GameMap.BrightSands NORMAL, 0, 1, 5, 2, [("k", 3)]⟩], true⟩
    0 "UYControllerTravelComponent::TravelToServer | m_isMatch [0]"
    (by decide) (by decide) rfl
  simpa [dropFrontGames, Game.drop_game] using h.1

theorem weaponGet_suicide :
    Weapon.get "Suicide" = some ⟨"Suicide", .Common, "Suicide"⟩ := by rfl

theorem weaponGet_fall :
    Weapon.get "Fall" = some ⟨"Fall", .Uncommon, "Fall"⟩ := by rfl

/-- Claim C5: the weapon fallback chain of the "dead" branch is total: a
causer resolving to the "None" actor forces the "Suicide" weapon; a causer
resolving to the "Player" actor whose origin weapon resolves to "None"
forces "Fall"; a "Player" causer otherwise passes the origin weapon through
unchanged (including an unresolved origin); any other causer — a different
actor or an unresolved one — yields no weapon. -/
theorem resolve_weapon_fallback (causer : Option Actor) (ow : Option Weapon)
    (a : Actor) :
    (causer = none → resolveWeapon causer ow = none) ∧
    (causer = some a →
      (a.name = "None" →
        resolveWeapon causer ow = some ⟨"Suicide", .Common, "Suicide"⟩) ∧
      (a.name = "Player" → ow.map Weapon.name = some "None" →
        resolveWeapon causer ow = some ⟨"Fall", .Uncommon, "Fall"⟩) ∧
      (a.name = "Player" → ow.map Weapon.name ≠ some "None" →
        resolveWeapon causer ow = ow) ∧
      (a.name ≠ "None" → a.name ≠ "Player" → resolveWeapon causer ow = none)) := by
  constructor
  · rintro rfl
    rfl
  · rintro rfl
    refine ⟨?_, ?_, ?_, ?_⟩
    · intro h
      simp [resolveWeapon, h, weaponGet_suicide]
    · intro h hw
      have hne : a.name ≠ "None" := by rw [h]; decide
      simp [resolveWeapon, h, hne, hw, weaponGet_fall]
    · intro h hw
      have hne : a.name ≠ "None" := by rw [h]; decide
      simp [resolveWeapon, h, hne, hw]
    · intro h1 h2
      simp [resolveWeapon, h1, h2]

/-- Witness for claim C5: a causer resolved to the "None" actor yields the
"Suicide" weapon whatever the origin weapon was. -/
theorem resolve_weapon_fallback_witness :
    resolveWeapon (some ⟨"None", .Common, "None"⟩) none =
      some ⟨"Suicide", .Common, "Suicide"⟩ :=
  ((resolve_weapon_fallback (some ⟨"None", .Common, "None"⟩) none
    ⟨"None", .Common, "None"⟩).2 rfl).1 rfl

/-- Claim C2 counterexample: with `party_size = 3` and `total_players = 4`,
a leave-match transition decrements to `3` and triggers no low-tone alert —
the code tests the post-decrement count against `party_size`, although the
pre-decrement count `4` exceeded it. -/
theorem player_match_state_counterexample :
    (playerParse ⟨false⟩
        ⟨[⟨"a", "r", "n", GameMap.BrightSands NORMAL, 0, 3, 4, 0, []⟩], true⟩
        "LogYPlayer" "OnRep_PlayerMatchState [left]").map
      (fun r => (r.2.2.1, r.2.2.2)) =
      some ([Event.TotalPlayerCountUpdate 3], ([] : List Beep)) := by rfl

/-- Claim C2 (amended): an `OnRep_PlayerMatchState` event with an extracted
bracketed state, processed in a session: on `"inMatch"`, `total_players` is
incremented, the high tone fires iff the new count exceeds `party_size`,
and `last_finished` becomes false; otherwise, with a positive count, it is
decremented, the low tone fires iff the *post-decrement* count exceeds
`party_size`, and `last_finished` becomes true; with a zero count nothing
changes; a total-player-count notification carrying the new count is
emitted in every case. -/
theorem player_match_state_transition (p : PlayerParser) (st : StateHolder)
    (g : Game) (rest : List Game) (text s : String)
    (hin : st.in_game = true) (hg : st.games = g :: rest)
    (hp : strStartsWith text "OnRep_PlayerMatchState" = true)
    (hs : substringBetween text "[" "]" = some s) :
    (s = "inMatch" →
      playerParse p st "LogYPlayer" text =
        some (⟨false⟩,
          { st with games := { g with total_players := g.total_players + 1 } :: rest },
          [.TotalPlayerCountUpdate (g.total_players + 1)],
          if g.total_players + 1 > (g.party_size : Int) then [⟨2000, 250⟩] else [])) ∧
    (s ≠ "inMatch" → g.total_players > 0 →
      playerParse p st "LogYPlayer" text =
        some (⟨true⟩,
          { st with games := { g with total_players := g.total_players - 1 } :: rest },
          [.TotalPlayerCountUpdate (g.total_players - 1)],
          if g.total_players - 1 > (g.party_size : Int) then [⟨400, 150⟩] else [])) ∧
    (s ≠ "inMatch" → ¬ (g.total_players > 0) →
      playerParse p st "LogYPlayer" text =
        some (p, st, [.TotalPlayerCountUpdate g.total_players], [])) := by
  refine ⟨?_, ?_, ?_⟩
  · rintro rfl
    simp [playerParse, hin, hg, hp, hs]
  · intro hne hpos
    simp [playerParse, hin, hg, hp, hs, hne, hpos]
  · intro hne hnpos
    simp [playerParse, hin, hg, hp, hs, hne, hnpos]

/-- Witness for claim C2: a fourth `inMatch` join at `party_size = 3`
raises the count to `4` and fires the high tone. -/
theorem player_match_state_transition_witness :
    playerParse ⟨false⟩
      ⟨[⟨"a", "r", "n", GameMap.BrightSands NORMAL, 0, 3, 3, 0, []⟩], true⟩
      "LogYPlayer" "OnRep_PlayerMatchState [inMatch]" =
      some (⟨false⟩,
        ⟨[⟨"a", "r", "n", GameMap.BrightSands NORMAL, 0, 3, 4, 0, []⟩], true⟩,
        [Event.TotalPlayerCountUpdate 4], [⟨2000, 250⟩]) := by
  have h := (player_match_state_transition ⟨false⟩
    ⟨[⟨"a", "r", "n", GameMap.BrightSands NORMAL, 0, 3, 3, 0, []⟩], true⟩
    ⟨"a", "r", "n", GameMap.BrightSands NORMAL, 0, 3, 3, 0, []⟩ []
    "OnRep_PlayerMatchState [inMatch]" "inMatch" rfl rfl (by decide) (by decide)).1 rfl
  simpa using h

theorem gameNew_fields (iid r : String) (m : GameMap) (ca : Int) (ps : Nat)
    (g : Game) (h : Game.new iid r m ca ps = some g) :
    g.party_size = ps ∧ g.total_players = 0 ∧ g.near_players = 0 ∧
      g.kill_count = [] ∧ g.instance_id = iid ∧ g.region = r ∧ g.map = m ∧
      g.created_at = ca := by
  unfold Game.new at h
  rcases Option.map_eq_some'.1 h with ⟨name, -, rfl⟩
  simp

/-- Claim C3 counterexample: with no preceding "Forcing transition to
match" line the parser's initial `party_size = 0` is used, so the session
constructed and inserted on "Welcomed by server" has `party_size = 0`,
not `≥ 1`. -/
theorem party_size_counterexample :
    ((serverParse ServerParser.default StateHolder.new 0 "LogYTravel"
        "UYControllerTravelComponent::TravelToServer | sessionId [abc-] | region [EU] | m_isMatch [1]").bind
      fun r => (serverParse r.1 r.2.1 0 "LogNet"
          "Welcomed by server. Level: /Game/Maps/MP/MAP01/MAP01_P").map
        fun r2 => r2.2.1.games.map Game.party_size) = some [0] := by rfl

/-- Claim C3 (amended): a session is constructed with the parser's current
`party_size` field; a "Forcing transition to match" line whose `SquadSize`
fragment is absent sets that field to `1` (so `party_size ≥ 1` holds for
sessions created after such a line), but the parser's initial value is `0`,
so a session created without any preceding forcing line has
`party_size = 0`. -/
theorem party_size_flow :
    ServerParser.default.party_size = 0 ∧
    (∀ (p : ServerParser) (st : StateHolder) (time : Int) (text : String),
      strStartsWith text "UYControllerTravelComponent::TravelToServer" = false →
      strStartsWith text "Forcing transition to match" = true →
      substringBetween text "SquadSize=" "?" = none →
      serverParse p st time "LogYTravel" text =
        some ({ p with party_size := 1 }, st, [])) ∧
    (∀ (p : ServerParser) (st : StateHolder) (time : Int) (text : String)
      (p' : ServerParser) (st' : StateHolder) (evs : List Event),
      p.hold = true → strStartsWith text "Welcomed by server" = true →
      serverParse p st time "LogNet" text = some (p', st', evs) →
      ∃ g : Game, evs = [Event.UpdateState (some g)] ∧
        g.party_size = p.party_size ∧ st' = st.set_game g) := by
  refine ⟨rfl, ?_, ?_⟩
  · intro p st time text h1 h2 h3
    simp [serverParse, h1, h2, h3]
  · intro p st time text p' st' evs hhold hsw h
    rw [serverParse] at h
    rw [if_neg (by decide)] at h
    rw [if_neg (by simp)] at h
    rw [if_pos (by simp [hhold, hsw])] at h
    rcases hm : substringBetween text "/Game/Maps/MP/" "/" with - | map_s
    · rw [hm] at h
      exact absurd h (by simp)
    · rw [hm] at h
      simp only [Option.some.injEq] at h
      have hps2 : (match parseMap map_s with
        | some m => { p with map := m }
        | none => p).party_size = p.party_size := by
        cases parseMap map_s <;> rfl
      generalize hp2 : (match parseMap map_s with
        | some m => { p with map := m }
        | none => p) = p2 at h hps2
      rcases hn : Game.new p2.instance_id p2.region p2.map p2.created_at
          p2.party_size with - | game
      · rw [hn] at h
        exact absurd h (by simp)
      · rw [hn] at h
        rcases Option.some.inj h with h'
        refine ⟨game, ?_, ?_, ?_⟩
        · exact (congrArg (fun x => x.2.2) h').symm
        · rw [(gameNew_fields _ _ _ _ _ _ hn).1, hps2]
        · exact (congrArg (fun x => x.2.1) h').symm

/-- Witness for claim C3: a forcing line without a `SquadSize` fragment
sets the parser's party size to 1. -/
theorem party_size_flow_witness :
    serverParse ServerParser.default StateHolder.new 0 "LogYTravel"
      "Forcing transition to match" =
      some ({ ServerParser.default with party_size := 1 }, StateHolder.new, []) :=
  party_size_flow.2.1 ServerParser.default StateHolder.new 0
    "Forcing transition to match" (by decide) (by decide) (by decide)

/-- Claim C10: `Game::new` is not total in `instance_id`.  An empty
trailing hyphen-delimited segment yields a session with empty `name`, zero
counters and an empty kill tally; a segment that is a valid 64-bit
hexadecimal numeral also yields a session with zero counters and an empty
kill tally; but a nonempty segment that is not valid hex — as in
"session-xyz" — makes the hex-parse `unwrap` panic. -/
theorem game_new_partiality (iid region : String) (map : GameMap) (ca : Int)
    (ps : Nat) :
    (lastHyphenSeg iid = "" →
      Game.new iid region map ca ps =
        some ⟨iid, region, "", map, ca, ps, 0, 0, []⟩) ∧
    (∀ n, fromStrRadix16 (lastHyphenSeg iid).data = some n →
      Game.new iid region map ca ps =
        some ⟨iid, region, fake_name n, map, ca, ps, 0, 0, []⟩) ∧
    Game.new "session-xyz" "eu" (GameMap.BrightSands NORMAL) 0 1 = none := by
  refine ⟨?_, ?_, by rfl⟩
  · intro h
    simp [Game.new, h]
  · intro n hn
    have hne : lastHyphenSeg iid ≠ "" := by
      intro he
      rw [he] at hn
      exact Option.noConfusion ((show fromStrRadix16 ("" : String).data = none from rfl) ▸ hn)
    simp [Game.new, hne, hn]

/-- Witness for claim C10: an empty trailing segment gives the empty name
and zeroed counters. -/
theorem game_new_partiality_witness :
    Game.new "a-" "r" (GameMap.BrightSands NORMAL) 0 1 =
      some ⟨"a-", "r", "", GameMap.BrightSands NORMAL, 0, 1, 0, 0, []⟩ :=
  (game_new_partiality "a-" "r" (GameMap.BrightSands NORMAL) 0 1).1 (by rfl)

theorem dropFrontGames_countersOK (l : List Game) (b b' : Bool)
    (hok : countersOK ⟨l, b⟩) : countersOK ⟨dropFrontGames l, b'⟩ := by
  cases l with
  | nil => intro g hg; simp [dropFrontGames] at hg
  | cons f r =>
    intro g hg
    simp only [dropFrontGames, List.mem_cons] at hg
    rcases hg with rfl | hg
    · simp [Game.drop_game]
    · exact hok g (by simp [hg])

theorem set_game_countersOK (st : StateHolder) (g : Game) (hok : countersOK st)
    (h1 : 0 ≤ g.total_players) (h2 : 0 ≤ g.near_players) :
    countersOK (st.set_game g) := by
  intro x hx
  simp only [StateHolder.set_game, List.mem_cons] at hx
  have hdrop : countersOK (⟨dropFrontGames st.games, st.in_game⟩ : StateHolder) :=
    dropFrontGames_countersOK st.games st.in_game st.in_game
      (fun y hy => hok y hy)
  rcases hx with rfl | hx
  · rcases hfind : (dropFrontGames st.games).find?
        (fun y => y.instance_id == g.instance_id) with - | found
    · rw [hfind]
      exact ⟨h1, h2⟩
    · rw [hfind]
      exact hdrop found (List.mem_of_find?_eq_some hfind)
  · exact hdrop x hx

theorem leave_game_countersOK (st : StateHolder) (hok : countersOK st) :
    countersOK st.leave_game := by
  intro g hg
  exact dropFrontGames_countersOK st.games st.in_game false
    (fun y hy => hok y hy) g hg

theorem countersOK_front_step (st : StateHolder) (g g' : Game)
    (rest : List Game) (b : Bool) (heq : st.games = g :: rest)
    (hok : countersOK st)
    (h1 : 0 ≤ g.total_players → 0 ≤ g'.total_players)
    (h2 : 0 ≤ g.near_players → 0 ≤ g'.near_players) :
    countersOK ⟨g' :: rest, b⟩ := by
  have hf := hok g (by rw [heq]; exact List.mem_cons_self _ _)
  intro x hx
  rcases List.mem_cons.1 hx with rfl | hx
  · exact ⟨h1 hf.1, h2 hf.2⟩
  · exact hok x (by rw [heq]; exact List.mem_cons_of_mem _ hx)

theorem playerParse_countersOK (p : PlayerParser) (st : StateHolder)
    (ty tx : String) (hok : countersOK st)
    (r : PlayerParser × StateHolder × List Event × List Beep)
    (h : playerParse p st ty tx = some r) : countersOK r.2.1 := by
  simp only [playerParse] at h
  repeat' split at h
  all_goals try exact Option.noConfusion h
  all_goals try cases Option.some.inj h
  all_goals try exact hok
  all_goals
    refine countersOK_front_step st _ _ _ _ (by assumption) hok ?_ ?_ <;>
      (intro hb; simp only [Game.kill]; omega)

theorem serverParse_countersOK (p : ServerParser) (st : StateHolder)
    (time : Int) (ty tx : String) (hok : countersOK st)
    (r : ServerParser × StateHolder × List Event)
    (h : serverParse p st time ty tx = some r) : countersOK r.2.1 := by
  simp only [serverParse] at h
  repeat' split at h
  all_goals try exact Option.noConfusion h
  all_goals try cases Option.some.inj h
  all_goals try exact hok
  all_goals try exact leave_game_countersOK st hok
  all_goals
    first
      | (rename_i game hn x m hpm
         exact set_game_countersOK st game hok
           (by simp [(gameNew_fields _ _ _ _ _ _ hn).2.1])
           (by simp [(gameNew_fields _ _ _ _ _ _ hn).2.2.1]))
      | (rename_i game hn x hpm
         exact set_game_countersOK st game hok
           (by simp [(gameNew_fields _ _ _ _ _ _ hn).2.1])
           (by simp [(gameNew_fields _ _ _ _ _ _ hn).2.2.1]))

theorem systemStep_countersOK (s : SysState) (time : Int) (ty tx : String)
    (hok : countersOK s.state) (r : SysState × List Event × List Beep)
    (h : systemStep s time ty tx = some r) : countersOK r.1.state := by
  simp only [systemStep] at h
  rcases hp : playerParse s.player s.state ty tx with - | pr
  · rw [hp] at h
    exact Option.noConfusion h
  · obtain ⟨p', st1, ev1, beeps⟩ := pr
    rw [hp] at h
    dsimp only at h
    rcases hs : serverParse s.server st1 time ty tx with - | sr
    · rw [hs] at h
      exact Option.noConfusion h
    · obtain ⟨sp', st2, ev2⟩ := sr
      rw [hs] at h
      dsimp only at h
      cases Option.some.inj h
      exact serverParse_countersOK s.server st1 time ty tx
        (playerParse_countersOK s.player s.state ty tx hok _ hp) _ hs

theorem runSystemFrom_countersOK (l : List (Int × String × String))
    (s : SysState) (hok : countersOK s.state) (s' : SysState)
    (h : runSystemFrom s l = some s') : countersOK s'.state := by
  induction l generalizing s with
  | nil => cases Option.some.inj h; exact hok
  | cons rec rest ih =>
    obtain ⟨t, ty, tx⟩ := rec
    simp only [runSystemFrom] at h
    rcases hstep : systemStep s t ty tx with - | r
    · rw [hstep] at h
      exact Option.noConfusion h
    · obtain ⟨s1, evs, beeps⟩ := r
      rw [hstep] at h
      exact ih s1 (systemStep_countersOK s t ty tx hok _ hstep) h

/-- Claim C4: along every run of the pipeline over decoded log records, the
`total_players` and `near_players` counters of every session in the store
never go below zero — every decrement is guarded, so the counters saturate
at zero whatever the order of increment and decrement events. -/
theorem counters_never_negative (l : List (Int × String × String))
    (s : SysState) (h : runSystem l = some s) :
    ∀ g ∈ s.state.games, 0 ≤ g.total_players ∧ 0 ≤ g.near_players := by
  have hinit : countersOK SysState.init.state := by
    intro g hg
    simp [SysState.init, StateHolder.new] at hg
  exact runSystemFrom_countersOK l SysState.init hinit s h

/-- Witness for claim C4: a run creating one session leaves its counters at
zero, hence non-negative. -/
theorem counters_never_negative_witness :
    0 ≤ (⟨"abc-", "EU", "", GameMap.BrightSands NORMAL, 0, 0, 0, 0, []⟩ : Game).total_players ∧
    0 ≤ (⟨"abc-", "EU", "", GameMap.BrightSands NORMAL, 0, 0, 0, 0, []⟩ : Game).near_players := by
  have h := counters_never_negative
    [(0, "LogYTravel",
      "UYControllerTravelComponent::TravelToServer | sessionId [abc-] | region [EU] | m_isMatch [1]"),
     (0, "LogNet", "Welcomed by server. Level: /Game/Maps/MP/MAP01/MAP01_P")]
    ⟨⟨false⟩, ⟨"abc-", "EU", GameMap.BrightSands NORMAL, 0, 0, false⟩,
      ⟨[⟨"abc-", "EU", "", GameMap.BrightSands NORMAL, 0, 0, 0, 0, []⟩], true⟩⟩ rfl
  exact h _ (List.mem_cons_self _ _)

theorem occursAt_zero (pat s : List Char) : occursAt pat s 0 = pat.isPrefixOf s := rfl

theorem occursAt_succ (pat : List Char) (c : Char) (t : List Char) (i : Nat) :
    occursAt pat (c :: t) (i + 1) = occursAt pat t i := rfl

theorem occursAt_nil (pat : List Char) (i : Nat) :
    occursAt pat ([] : List Char) i = pat.isPrefixOf ([] : List Char) := by
  rw [occursAt, List.drop_nil]

theorem findSub_eq_none_iff (pat s : List Char) :
    findSub pat s = none ↔ ∀ i, occursAt pat s i = false := by
  induction s with
  | nil =>
    rw [findSub]
    by_cases hp : pat.isPrefixOf ([] : List Char)
    · simp only [if_pos hp]
      constructor
      · intro h
        exact Option.noConfusion h
      · intro h
        have := h 0
        rw [occursAt_nil, hp] at this
        exact Bool.noConfusion this
    · simp only [if_neg hp]
      constructor
      · intro _ i
        rw [occursAt_nil]
        exact Bool.eq_false_iff.2 hp
      · intro _
        trivial
  | cons c t ih =>
    rw [findSub]
    by_cases hp : pat.isPrefixOf (c :: t)
    · simp only [if_pos hp]
      constructor
      · intro h
        exact Option.noConfusion h
      · intro h
        have := h 0
        rw [occursAt_zero, hp] at this
        exact Bool.noConfusion this
    · simp only [if_neg hp]
      rw [Option.map_eq_none']
      constructor
      · intro h i
        cases i with
        | zero =>
          rw [occursAt_zero]
          exact Bool.eq_false_iff.2 hp
        | succ n =>
          rw [occursAt_succ]
          exact ih.1 h n
      · intro h
        exact ih.2 fun i => by
          have := h (i + 1)
          rwa [occursAt_succ] at this

theorem findSub_eq_some_iff (pat s : List Char) (i : Nat) :
    findSub pat s = some i ↔ FirstOcc pat s i := by
  unfold FirstOcc
  induction s generalizing i with
  | nil =>
    rw [findSub]
    by_cases hp : pat.isPrefixOf ([] : List Char)
    · rw [if_pos hp]
      constructor
      · intro h
        cases Option.some.inj h
        exact ⟨by rw [occursAt_nil]; exact hp, fun k hk => absurd hk (Nat.not_lt_zero k)⟩
      · rintro ⟨h1, h2⟩
        cases i with
        | zero => rfl
        | succ n =>
          have := h2 0 (Nat.succ_pos n)
          rw [occursAt_nil, hp] at this
          exact Bool.noConfusion this
    · rw [if_neg hp]
      constructor
      · intro h
        exact Option.noConfusion h
      · rintro ⟨h1, -⟩
        rw [occursAt_nil] at h1
        exact absurd h1 hp
  | cons c t ih =>
    rw [findSub]
    by_cases hp : pat.isPrefixOf (c :: t)
    · rw [if_pos hp]
      constructor
      · intro h
        cases Option.some.inj h
        exact ⟨by rw [occursAt_zero]; exact hp, fun k hk => absurd hk (Nat.not_lt_zero k)⟩
      · rintro ⟨h1, h2⟩
        cases i with
        | zero => rfl
        | succ n =>
          have := h2 0 (Nat.succ_pos n)
          rw [occursAt_zero, hp] at this
          exact Bool.noConfusion this
    · rw [if_neg hp]
      constructor
      · intro h
        rcases Option.map_eq_some'.1 h with ⟨j, hj, rfl⟩
        obtain ⟨hj1, hj2⟩ := (ih j).1 hj
        refine ⟨by rwa [occursAt_succ], ?_⟩
        intro k hk
        cases k with
        | zero =>
          rw [occursAt_zero]
          exact Bool.eq_false_iff.2 hp
        | succ m =>
          rw [occursAt_succ]
          exact hj2 m (by omega)
      · rintro ⟨h1, h2⟩
        cases i with
        | zero =>
          rw [occursAt_zero] at h1
          exact absurd h1 hp
        | succ n =>
          rw [Option.map_eq_some']
          refine ⟨n, (ih n).2 ⟨by rwa [occursAt_succ] at h1, ?_⟩, rfl⟩
          intro k hk
          have := h2 (k + 1) (by omega)
          rwa [occursAt_succ] at this

theorem occursAt_drop (pat text : List Char) (m k : Nat) :
    occursAt pat (text.drop m) k = occursAt pat text (m + k) := by
  rw [occursAt, occursAt, List.drop_drop]

/-- Claim C9: the extraction helper's contract.  If `s` does not occur in
`text`, the result is `none`; if it first occurs at `i` but `e` does not
occur at or after the end of that occurrence, the result is `none`;
otherwise the result is exactly the text strictly between the end of the
first occurrence of `s` and the first subsequent occurrence of `e`. -/
theorem substring_between_contract (text s e : List Char) :
    ((∀ i, occursAt s text i = false) → substring_between text s e = none) ∧
    (∀ i, FirstOcc s text i →
      (∀ j, i + s.length ≤ j → occursAt e text j = false) →
      substring_between text s e = none) ∧
    (∀ i j, FirstOcc s text i → FirstOccFrom e text (i + s.length) j →
      substring_between text s e =
        some ((text.drop (i + s.length)).take (j - (i + s.length)))) := by
  refine ⟨?_, ?_, ?_⟩
  · intro h
    rw [substring_between, (findSub_eq_none_iff s text).2 h, Option.none_bind]
  · intro i hfo hno
    rw [substring_between, (findSub_eq_some_iff s text i).2 hfo, Option.some_bind]
    have : findSub e (text.drop (i + s.length)) = none := by
      rw [findSub_eq_none_iff]
      intro k
      rw [occursAt_drop]
      exact hno (i + s.length + k) (by omega)
    rw [this, Option.map_none']
  · intro i j hfo ⟨hle, hocc, hmin⟩
    rw [substring_between, (findSub_eq_some_iff s text i).2 hfo, Option.some_bind]
    have : findSub e (text.drop (i + s.length)) = some (j - (i + s.length)) := by
      rw [findSub_eq_some_iff]
      refine ⟨?_, ?_⟩
      · rw [occursAt_drop]
        rwa [show i + s.length + (j - (i + s.length)) = j by omega]
      · intro k hk
        rw [occursAt_drop]
        exact hmin (i + s.length + k) (by omega) (by omega)
    rw [this, Option.map_some']

/-- Witness for claim C9: extracting between `[` and `]` from `x[ab]y`. -/
theorem substring_between_contract_witness :
    substring_between "x[ab]y".data "[".data "]".data = some "ab".data := by
  have h := (substring_between_contract "x[ab]y".data "[".data "]".data).2.2 1 4
    (by decide) (by decide)
  simpa using h

theorem tsShapeB_length (ts : List Char) (h : tsShapeB ts = true) :
    ts.length = 23 := by
  rw [tsShapeB, Bool.and_eq_true, beq_iff_eq] at h
  exact h.1

theorem takeWhile_append_of_all (p : Char → Bool) (l : List Char) (c : Char)
    (r : List Char) (hl : ∀ x ∈ l, p x = true) (hc : p c = false) :
    (l ++ c :: r).takeWhile p = l ∧ (l ++ c :: r).dropWhile p = c :: r := by
  induction l with
  | nil =>
    simp only [List.nil_append, List.takeWhile_cons, List.dropWhile_cons, hc]
    exact ⟨rfl, rfl⟩
  | cons a t ih =>
    have ha := hl a (List.mem_cons_self a t)
    have iht := ih fun x hx => hl x (List.mem_cons_of_mem a hx)
    simp only [List.cons_append, List.takeWhile_cons, List.dropWhile_cons, ha,
      if_true]
    exact ⟨by rw [iht.1], iht.2⟩

theorem takeWhile_ne_newline (txt : List Char) (h : '\n' ∉ txt) :
    txt.takeWhile (· != '\n') = txt := by
  rw [List.takeWhile_eq_self_iff]
  intro x hx
  exact bne_iff_ne.2 fun he => h (he ▸ hx)

theorem expectChar_cons (a : Char) (r : List Char) :
    expectChar a (a :: r) = some r := by
  simp [expectChar]

theorem expectChar_eq_some (a : Char) (l r : List Char) :
    expectChar a l = some r ↔ l = a :: r := by
  cases l with
  | nil => simp [expectChar]
  | cons c t =>
    rw [expectChar]
    by_cases hc : c = a
    · subst hc
      simp
    · simp [hc]

theorem matchAt_complete (cs ts ty txt : List Char)
    (h : LineGrammar cs ts ty txt) : matchAt cs = some ⟨ts, ty, txt⟩ := by
  obtain ⟨fr, rfl, hts, hfr3, hfrn, htyw, htxtn⟩ := h
  have hts23 : ts.length = 23 := tsShapeB_length ts hts
  have hty := takeWhile_append_of_all isWordChar ty ':' (' ' :: txt) htyw (by decide)
  have htxt : txt.takeWhile (· != '\n') = txt := takeWhile_ne_newline txt htxtn
  have hcond : (fr.length == 3 && fr.all (· != '\n')) = true := by
    rw [hfr3]
    simp only [beq_self_eq_true, Bool.true_and, List.all_eq_true]
    intro x hx
    exact bne_iff_ne.2 (hfrn x hx)
  simp only [List.cons_append, List.append_assoc]
  simp only [matchAt, expectChar_cons, Option.some_bind, List.take_left' hts23,
    List.drop_left' hts23, if_pos hts, hcond, if_true, List.take_left' hfr3,
    List.drop_left' hfr3, hty.1, hty.2, Option.map_some', htxt]

theorem matchAt_sound (cs : List Char) (r : RawLine) (hnl : '\n' ∉ cs)
    (h : matchAt cs = some r) : LineGrammar cs r.ts r.type_ r.text := by
  rw [matchAt] at h
  rcases Option.bind_eq_some.1 h with ⟨r1, h1, ha⟩
  clear h
  rw [expectChar_eq_some] at h1
  subst h1
  try dsimp only at ha
  by_cases hts : tsShapeB (r1.take 23) = true
  case neg =>
    rw [if_neg hts] at ha
    exact Option.noConfusion ha
  rw [if_pos hts] at ha
  rcases Option.bind_eq_some.1 ha with ⟨r2a, h2, hb⟩
  clear ha
  rw [expectChar_eq_some] at h2
  rcases Option.bind_eq_some.1 hb with ⟨r2, h3, hc⟩
  clear hb
  rw [expectChar_eq_some] at h3
  try dsimp only at hc
  by_cases hfr : ((r2.take 3).length == 3 && (r2.take 3).all (· != '\n')) = true
  case neg =>
    rw [if_neg hfr] at hc
    exact Option.noConfusion hc
  rw [if_pos hfr] at hc
  rcases Option.bind_eq_some.1 hc with ⟨r3, h4, hd⟩
  clear hc
  rw [expectChar_eq_some] at h4
  rcases Option.bind_eq_some.1 hd with ⟨r4, h5, he⟩
  clear hd
  rw [expectChar_eq_some] at h5
  rcases Option.map_eq_some'.1 he with ⟨rest, h6, hr⟩
  clear he
  rw [expectChar_eq_some] at h6
  subst hr
  have hsub : '\n' ∉ rest := by
    intro hm
    apply hnl
    apply List.mem_cons_of_mem
    have m0 : '\n' ∈ r4 := h6 ▸ List.mem_cons_of_mem ' ' hm
    have m1 : '\n' ∈ r3 :=
      (List.dropWhile_sublist _).subset (h5 ▸ List.mem_cons_of_mem ':' m0)
    have m2 : '\n' ∈ r2 :=
      (List.drop_sublist _ _).subset (h4 ▸ List.mem_cons_of_mem ']' m1)
    have m3 : '\n' ∈ r2a := h3 ▸ List.mem_cons_of_mem '[' m2
    exact (List.drop_sublist _ _).subset (h2 ▸ List.mem_cons_of_mem ']' m3)
  have e3 : r3 = r3.takeWhile isWordChar ++ ':' :: ' ' :: rest := by
    conv_lhs => rw [← List.takeWhile_append_dropWhile isWordChar r3]
    rw [h5, h6]
  have e2 : r2 = r2.take 3 ++ ']' :: r3 := by
    conv_lhs => rw [← List.take_append_drop 3 r2]
    rw [h4]
  have e1 : r1 = r1.take 23 ++ ']' :: '[' :: r2 := by
    conv_lhs => rw [← List.take_append_drop 23 r1]
    rw [h2, h3]
  rw [Bool.and_eq_true] at hfr
  obtain ⟨hfl, hfa⟩ := hfr
  refine ⟨r2.take 3, ?_, hts, beq_iff_eq.1 hfl, ?_, ?_, ?_⟩
  · rw [takeWhile_ne_newline rest hsub]
    simp only [List.cons_append, List.append_assoc]
    conv_lhs => rw [e1, e2, e3]
  · intro c hc
    exact bne_iff_ne.1 (List.all_eq_true.1 hfa c hc)
  · intro c hc
    exact List.mem_takeWhile_imp hc
  · rw [takeWhile_ne_newline rest hsub]
    exact hsub

theorem findMatch_of_matchAt (cs : List Char) (r : RawLine)
    (h : matchAt cs = some r) : findMatch cs = some r := by
  cases cs with
  | nil => exact absurd h (by rw [matchAt]; exact fun hc => Option.noConfusion hc)
  | cons c t =>
    rw [findMatch, h]

theorem findMatch_some (cs : List Char) (r : RawLine)
    (h : findMatch cs = some r) : ∃ p, matchAt (cs.drop p) = some r := by
  induction cs with
  | nil => exact absurd h (by rw [findMatch]; exact fun hc => Option.noConfusion hc)
  | cons c t ih =>
    rw [findMatch] at h
    rcases hm : matchAt (c :: t) with - | r'
    · rw [hm] at h
      obtain ⟨p, hp⟩ := ih h
      exact ⟨p + 1, hp⟩
    · rw [hm] at h
      cases Option.some.inj h
      exact ⟨0, hm⟩

/-- Claim C8 (amended): for an ASCII log line (no embedded newline; on
ASCII text the model's character classes coincide exactly with the regex
crate's Unicode `\w`/`\d`), (a) if the line matches the grammar anchored
at its start and its timestamp denotes a valid calendar date-time
(including a leap-second `60` seconds field), the decoder recovers exactly
the triple — the timestamp as a UTC instant in Unix milliseconds, the
maximal word-character run as the event type, and the complete free text
with no characters lost; (b) if it matches the grammar but the timestamp
is not a valid date-time (e.g. month 13, or seconds above 60), the decoder
is fatal (the `unwrap` panics); (c) if the grammar matches nowhere in the
line (the regex search is unanchored), the decoder yields no event and is
never fatal. -/
theorem decoder_correct (cs ts ty txt : List Char) (hnl : '\n' ∉ cs)
    (hascii : ∀ c ∈ cs, c.toNat ≤ 127) :
    (LineGrammar cs ts ty txt → validTs ts = true →
      handle cs = .ok (some (tsMillis ts, ty, txt))) ∧
    (LineGrammar cs ts ty txt → validTs ts = false →
      handle cs = .error ()) ∧
    ((∀ p ts2 ty2 txt2, ¬ LineGrammar (cs.drop p) ts2 ty2 txt2) →
      handle cs = .ok none) := by
  refine ⟨?_, ?_, ?_⟩
  · intro hg hv
    rw [handle, findMatch_of_matchAt cs _ (matchAt_complete cs ts ty txt hg)]
    dsimp only
    rw [chronoParse, if_pos hv]
  · intro hg hv
    rw [handle, findMatch_of_matchAt cs _ (matchAt_complete cs ts ty txt hg)]
    dsimp only
    rw [chronoParse, if_neg (by rw [hv]; exact Bool.false_ne_true)]
  · intro hnone
    rcases hf : findMatch cs with - | r
    · rw [handle, hf]
    · obtain ⟨p, hp⟩ := findMatch_some cs r hf
      have hnl2 : '\n' ∉ cs.drop p := fun hm => hnl (List.mem_of_mem_drop hm)
      exact absurd (matchAt_sound (cs.drop p) r hnl2 hp)
        (hnone p r.ts r.type_ r.text)

/-- Claim C8 counterexample: the line `[2023.13.01-00.00.00:000][abc]LogX: x`
matches the grammar bit-exactly (month `13` is two digits), yet the decoder
does not recover a triple — the timestamp `unwrap` is fatal. -/
theorem decoder_counterexample :
    LineGrammar "[2023.13.01-00.00.00:000][abc]LogX: x".data
      "2023.13.01-00.00.00:000".data "LogX".data "x".data ∧
    handle "[2023.13.01-00.00.00:000][abc]LogX: x".data = .error () := by
  constructor
  · exact ⟨"abc".data, by decide⟩
  · rfl

/-- Witness for claim C8 on a concrete well-formed line. -/
theorem decoder_correct_witness :
    handle "[2023.01.02-03.04.05:678][abc]LogX: hello".data =
      .ok (some (1672628645678, "LogX".data, "hello".data)) := by
  have h := (decoder_correct "[2023.01.02-03.04.05:678][abc]LogX: hello".data
    "2023.01.02-03.04.05:678".data "LogX".data "hello".data (by decide)
    (by decide)).1 ⟨"abc".data, by decide⟩ (by decide)
  have h2 : tsMillis "2023.01.02-03.04.05:678".data = 1672628645678 := by decide
  rw [h, h2]
